import Mathlib

/-!
# GhanaMarket catalog: verification of the listing / form behavior

Shallow embedding of the three source files of the GhanaMarket storefront:
the `HomePage` component (`loadCategories`, `loadProducts` queries and their
state updates), and the `ProductFormPage` component (`addImage`, `removeImage`,
`handleSubmit` create / update paths).

The backend is a hosted relational store accessed through a query-builder
client.  A table is embedded as a `List` of rows in the store's physical row
order; the client's `eq` / `is` / `or(ilike...)` filters become `List.filter`,
`order(key)` becomes a stable insertion sort on that key (the store guarantees
only the requested key; the relative order of key-ties is not specified by the
query, so it is modelled as following the physical row order, which the stable
sort preserves), and `limit n` becomes `List.take n`.

Identifiers are uuids in the store; they are embedded as naturals, keeping
only what the properties use: decidable equality, a total order, and the
ability to generate a fresh one.  Timestamps are abstract instants (`Nat`).
-/

namespace GhanaMarket

/-- A row of the `categories` table: `loadCategories` selects `*`, filters on
`parent_id` and orders by `display_order`. -/
structure Category where
  id : Nat
  name : String
  parent_id : Option Nat
  display_order : Nat
  deriving DecidableEq, Repr

/-- A row of the `products` table, with the columns the three source files
read or write. `category_id` is the column `loadProducts` filters on;
`category` is the text column the product form writes. -/
structure Product where
  id : Nat
  seller_id : String
  title : String
  description : String
  price : ℚ
  category : String
  category_id : Option String
  stock_count : Nat
  condition : String
  images : List String
  status : String
  created_at : Nat
  updated_at : Nat
  deriving DecidableEq, Repr

/-- Lower-case a string character-wise (the case folding `ilike` applies). -/
def lowerChars (s : String) : List Char :=
  s.data.map Char.toLower

/-- Whether the first character list occurs at the head of the second. -/
def startsWithChars : List Char → List Char → Bool
  | [], _ => true
  | _ :: _, [] => false
  | c :: cs, d :: ds => c == d && startsWithChars cs ds

/-- Whether the first character list occurs contiguously somewhere in the
second. -/
def occursWithin (needle : List Char) : List Char → Bool
  | [] => needle.isEmpty
  | d :: ds => startsWithChars needle (d :: ds) || occursWithin needle ds

/-- `ilike pattern = contains needle` case-insensitively: the embedding of the
builder filter `col.ilike.%needle%` applied to a cell `hay`. -/
def containsCI (hay needle : String) : Bool :=
  occursWithin (lowerChars needle) (lowerChars hay)

/-- The row predicate accumulated by `loadProducts` on the query builder:
`eq(status, active)`, then `eq(category_id, c)` when a category is selected
(`if (selectedCategory)`), then `or(title.ilike.%q%, description.ilike.%q%)`
when the search text is non-empty (`if (searchQuery)`: the empty string is
falsy, so no search filter is added). -/
def matchesFilter (selectedCategory : Option String) (searchQuery : String)
    (p : Product) : Bool :=
  p.status == "active"
    && (match selectedCategory with
        | some c => p.category_id == some c
        | none => true)
    && (if searchQuery == "" then true
        else containsCI p.title searchQuery || containsCI p.description searchQuery)

/-- The sort key of `order(created_at, { ascending: false })`: creation
timestamp descending.  The query requests no secondary key. -/
def createdDesc (a b : Product) : Prop :=
  b.created_at ≤ a.created_at

instance : DecidableRel createdDesc := fun a b =>
  inferInstanceAs (Decidable (b.created_at ≤ a.created_at))

instance : IsTotal Product createdDesc :=
  ⟨fun a b => Nat.le_total b.created_at a.created_at⟩

instance : IsTrans Product createdDesc :=
  ⟨fun _ _ _ hab hbc => Nat.le_trans hbc hab⟩

/-- The query issued by `loadProducts` against the products table `tbl`
(in physical row order): filter by status / category / search, order by
creation timestamp descending, `limit(50)`. -/
def loadProductsQuery (tbl : List Product) (selectedCategory : Option String)
    (searchQuery : String) : List Product :=
  ((tbl.filter (matchesFilter selectedCategory searchQuery)).insertionSort
      createdDesc).take 50

/-- The sort key of `order(display_order)` (ascending is the default). -/
def rankLe (a b : Category) : Prop :=
  a.display_order ≤ b.display_order

instance : DecidableRel rankLe := fun a b =>
  inferInstanceAs (Decidable (a.display_order ≤ b.display_order))

instance : IsTotal Category rankLe :=
  ⟨fun a b => Nat.le_total a.display_order b.display_order⟩

instance : IsTrans Category rankLe :=
  ⟨fun _ _ _ hab hbc => Nat.le_trans hab hbc⟩

/-- The query issued by `loadCategories`: `is(parent_id, null)` then
`order(display_order)`. -/
def loadCategoriesQuery (tbl : List Category) : List Category :=
  (tbl.filter (fun c => c.parent_id == none)).insertionSort rankLe

/-- The state `loadCategories` updates: `setCategories(data)` runs only under
`if (data)`, so a failed response (`data` null, embedded as `none`) leaves the
previous state in place.  The effect runs once, on mount, from the initial
state `[]`. -/
def loadCategoriesStep (prev : List Category) (resp : Option (List Category)) :
    List Category :=
  match resp with
  | some d => d
  | none => prev

/-- The products/loading state `loadProducts` finishes in: on a successful
response the result list replaces `products`; under `if (data)` a failed
response leaves `products` untouched; `setLoading(false)` runs either way. -/
structure HomeState where
  products : List Product
  loading : Bool
  deriving DecidableEq, Repr

/-- One completed `loadProducts` round trip: `ok` tells whether the transport
succeeded; on success the response is `loadProductsQuery` of the table. -/
def loadProductsStep (st : HomeState) (tbl : List Product)
    (selectedCategory : Option String) (searchQuery : String) (ok : Bool) :
    HomeState :=
  if ok then
    { products := loadProductsQuery tbl selectedCategory searchQuery,
      loading := false }
  else
    { st with loading := false }

/-! ## The product form (`ProductFormPage`) -/

/-- The `formData` state of `ProductFormPage` together with the separate
`imageInput` state: every field the form binds. -/
structure FormState where
  title : String
  description : String
  price : String
  category : String
  stock_count : String
  condition : String
  images : List String
  imageInput : String
  deriving DecidableEq, Repr

/-- The initial `useState` values of the form. -/
def initialForm : FormState :=
  { title := "", description := "", price := "", category := "",
    stock_count := "", condition := "new", images := [], imageInput := "" }

/-- JavaScript `String.prototype.trim`: strip whitespace from both ends. -/
def jsTrim (s : String) : String :=
  ⟨((s.data.dropWhile Char.isWhitespace).reverse.dropWhile
      Char.isWhitespace).reverse⟩

/-- `addImage`: when the trimmed pending input is truthy (non-empty) and the
list holds fewer than 5 images, append the (untrimmed) input and clear the
input; otherwise do nothing. -/
def addImage (st : FormState) : FormState :=
  if jsTrim st.imageInput != "" && st.images.length < 5 then
    { st with images := st.images ++ [st.imageInput], imageInput := "" }
  else st

/-- `removeImage(index)`: `images.filter((_, i) => i !== index)`. -/
def removeImage (idx : Nat) (st : FormState) : FormState :=
  { st with
    images := (st.images.enum.filter (fun e => e.1 != idx)).map (fun e => e.2) }

/-- The image-related events the form can receive: typing into the image URL
field, clicking Add (or pressing Enter there), clicking a remove button. -/
inductive FOp where
  | setInput (s : String)
  | add
  | remove (i : Nat)
  deriving DecidableEq, Repr

/-- One form event. -/
def stepForm (st : FormState) : FOp → FormState
  | .setInput s => { st with imageInput := s }
  | .add => addImage st
  | .remove i => removeImage i st

/-- A whole interaction: fold the events over the initial form state. -/
def runForm (ops : List FOp) : FormState :=
  ops.foldl stepForm initialForm

/-! ## Submitting (`handleSubmit`) -/

/-- Value of a non-empty all-digit character list, base 10. -/
def digitsVal (cs : List Char) : Nat :=
  cs.foldl (fun n c => 10 * n + (c.toNat - 48)) 0

/-- Parse a plain digit string. -/
def parseDigits (cs : List Char) : Option Nat :=
  if cs.isEmpty then none
  else if cs.all Char.isDigit then some (digitsVal cs) else none

/-- `parseFloat` restricted to canonical decimal numerals `digits[.digits]`:
`none` stands for the `NaN` that `parseFloat` yields on anything else. -/
def parseDecimal (s : String) : Option ℚ :=
  match s.data.splitOn '.' with
  | [w] => (parseDigits w).map (fun n => (n : ℚ))
  | [w, f] => do
      let a ← parseDigits w
      let b ← parseDigits f
      pure ((a : ℚ) + (b : ℚ) / ((10 : ℚ) ^ f.length))
  | _ => none

/-- `parseInt` restricted to plain digit strings: `none` stands for `NaN`. -/
def parseNat (s : String) : Option Nat :=
  parseDigits s.data

/-- The `productData` object literal `handleSubmit` builds: the seven
submitted fields plus `updated_at = now`. -/
structure ProductData where
  title : String
  description : String
  price : ℚ
  category : String
  stock_count : Nat
  condition : String
  images : List String
  updated_at : Nat
  deriving DecidableEq, Repr

/-- Build `productData` from the form state.  `parseFloat`/`parseInt` turn
unparseable input into `NaN`; the store's numeric columns reject `NaN`, so a
request that could persist exists exactly when both numbers parse — `none`
models the `NaN`-poisoned request that cannot result in a persisted row. -/
def mkProductData (f : FormState) (now : Nat) : Option ProductData := do
  let price ← parseDecimal f.price
  let stock ← parseNat f.stock_count
  pure { title := f.title, description := f.description, price := price,
         category := f.category, stock_count := stock,
         condition := f.condition, images := f.images, updated_at := now }

/-- Apply `productData` to a stored row, as `update(productData)` does:
overwrite exactly the eight carried columns, leave the rest of the row. -/
def updateRow (p : Product) (d : ProductData) : Product :=
  { p with title := d.title, description := d.description, price := d.price,
           category := d.category, stock_count := d.stock_count,
           condition := d.condition, images := d.images,
           updated_at := d.updated_at }

/-- The update path of `handleSubmit` (a `productId` is present):
`update(productData).eq(id, productId)` rewrites the matching rows and
touches no other row. -/
def handleSubmitUpdate (store : List Product) (productId : Nat)
    (f : FormState) (now : Nat) : Option (List Product) :=
  (mkProductData f now).map (fun d =>
    store.map (fun p => if p.id = productId then updateRow p d else p))

/-- A row identifier not used by any row of the store. -/
def freshId (store : List Product) : Nat :=
  store.foldr (fun p m => max p.id m) 0 + 1

/-- Modelled from the spec: the store's column defaults on `insert`.  The
insert payload in `handleSubmit` carries neither `id` nor `created_at` (nor
`category_id`); those columns are filled by the store, which per the spec
"assigns a new identifier" and "sets both timestamps to now".  The payload
itself — the seven submitted fields, `seller_id` and `status = active` — is
taken from the source. -/
def insertProduct (store : List Product) (sellerId : String) (d : ProductData)
    (now : Nat) : Product :=
  { id := freshId store, seller_id := sellerId, title := d.title,
    description := d.description, price := d.price, category := d.category,
    category_id := none, stock_count := d.stock_count,
    condition := d.condition, images := d.images, status := "active",
    created_at := now, updated_at := d.updated_at }

/-- The create path of `handleSubmit` (no `productId`): insert one new row;
return the grown store and the persisted row. -/
def handleSubmitCreate (store : List Product) (sellerId : String)
    (f : FormState) (now : Nat) : Option (List Product × Product) :=
  (mkProductData f now).map (fun d =>
    let p := insertProduct store sellerId d now
    (store ++ [p], p))

/-- The failures the writer contract distinguishes. -/
inductive WriteError where
  | notFound
  | forbidden
  | invalidData
  deriving DecidableEq, Repr

/-- Modelled from the spec: the storage layer's checks on update, which are
not in the shown source ("requires `sellerId` to equal the product's existing
owner (authorization check — out-of-scope components may enforce this at the
storage layer instead)"; "`NotFound` (update targets a non-existent id)";
"`Forbidden` (update by non-owner)").  The row rewrite itself is the source's
`handleSubmitUpdate`. -/
def updateProductChecked (store : List Product) (productId : Nat)
    (sellerId : String) (f : FormState) (now : Nat) :
    Except WriteError (List Product) :=
  match store.find? (fun p => p.id == productId) with
  | none => .error .notFound
  | some p =>
      if p.seller_id == sellerId then
        match handleSubmitUpdate store productId f now with
        | some s => .ok s
        | none => .error .invalidData
      else
        .error .forbidden

/-- The store contents after a writer call: unchanged when the call failed. -/
def storeAfter (r : Except WriteError (List Product))
    (store : List Product) : List Product :=
  match r with
  | .ok s => s
  | .error _ => store

/-! ## Sample rows used by concrete instantiations -/

/-- An active electronics product row with the given identifier and creation
instant. -/
def sampleRow (i : Nat) (t : Nat) : Product :=
  { id := i, seller_id := "s", title := "Phone", description := "",
    price := 0, category := "electronics", category_id := some "e",
    stock_count := 1, condition := "new", images := [], status := "active",
    created_at := t, updated_at := t }

/-- A products table with two rows that tie on the creation timestamp, stored
with the larger identifier first. -/
def tieTbl : List Product :=
  [sampleRow 2 5, sampleRow 1 5]

/-- A products table of 51 rows that all pass the default filter, stored in
creation order (newest first). -/
def tbl51 : List Product :=
  (List.range 51).map (fun i => sampleRow (i + 1) (50 - i))

/-- The ordering the claim asserts for listing results: creation timestamp
descending, ties broken by identifier ascending. -/
def claimOrder (a b : Product) : Prop :=
  b.created_at < a.created_at ∨ (a.created_at = b.created_at ∧ a.id < b.id)

instance : DecidableRel claimOrder := fun p r =>
  inferInstanceAs (Decidable
    (r.created_at < p.created_at ∨ (p.created_at = r.created_at ∧ p.id < r.id)))

/-- A top-level category row. -/
def catRow (i : Nat) (r : Nat) : Category :=
  { id := i, name := "c", parent_id := none, display_order := r }

/-- The Phone scenario draft: title Phone, price 150.50, stock 3, category
electronics, condition new, no images. -/
def phoneDraft : FormState :=
  { initialForm with
    title := "Phone", price := "150.50", stock_count := "3",
    category := "electronics", description := "d" }

/-- The row the Phone scenario persists into an empty store. -/
def phoneRow : Product :=
  { id := 1, seller_id := "S1", title := "Phone", description := "d",
    price := (301 : ℚ) / 2, category := "electronics", category_id := none,
    stock_count := 3, condition := "new", images := [], status := "active",
    created_at := 7, updated_at := 7 }

end GhanaMarket

namespace GhanaMarket

/-! ## C3: adding a filter narrows the matching set -/

theorem matchesFilter_some_imp (c : String) (q : String) (p : Product)
    (h : matchesFilter (some c) q p = true) : matchesFilter none q p = true := by
  simp only [matchesFilter, Bool.and_eq_true] at h ⊢
  exact ⟨⟨h.1.1, trivial⟩, h.2⟩

theorem matchesFilter_search_imp (cat : Option String) (q : String)
    (p : Product) (h : matchesFilter cat q p = true) :
    matchesFilter cat "" p = true := by
  simp only [matchesFilter, Bool.and_eq_true] at h ⊢
  refine ⟨h.1, ?_⟩
  simp

/-- C3: for every table, base filter state and added predicate (a category
restriction added to a category-free query, or a non-empty search text added
to a search-free query), the rows satisfying the narrowed query's membership
condition are a subset of the rows satisfying the wider one: adding a filter
never increases the matching set. -/
theorem C3_adding_filter_narrows (tbl : List Product) (c : String)
    (cat : Option String) (q : String) :
    tbl.filter (matchesFilter (some c) q) ⊆ tbl.filter (matchesFilter none q) ∧
    tbl.filter (matchesFilter cat q) ⊆ tbl.filter (matchesFilter cat "") := by
  constructor <;> intro p hp <;> rw [List.mem_filter] at hp ⊢
  · exact ⟨hp.1, matchesFilter_some_imp c q p hp.2⟩
  · exact ⟨hp.1, matchesFilter_search_imp cat q p hp.2⟩

/-- Concrete instantiation of `C3_adding_filter_narrows`: the sample row kept
by the narrowed query is kept by the wider one. -/
theorem C3_witness :
    sampleRow 1 5 ∈ tieTbl.filter (matchesFilter none "pho") := by
  have h := (C3_adding_filter_narrows tieTbl "e" none "pho").1
  exact h (by decide)

/-! ## C1: size and order of the listing result -/

/-- C1 counterexample: the query orders by creation timestamp only, with no
secondary key, so ties follow the store's row order.  On a table whose two
rows tie on the creation timestamp and sit in descending-identifier order,
the result violates the claimed "ties broken by identifier ascending". -/
theorem C1_counterexample :
    ¬ List.Pairwise claimOrder (loadProductsQuery tieTbl none "") := by
  decide

/-- C1 amended: for every table and filter state the result has at most 50
items and is ordered by creation timestamp descending; the relative order of
rows with equal creation timestamp follows the store's row order (the query
requests no identifier tie-break), so it need not be identifier-ascending. -/
theorem C1_limit_and_order (tbl : List Product) (c : Option String)
    (q : String) :
    (loadProductsQuery tbl c q).length ≤ 50 ∧
    List.Sorted createdDesc (loadProductsQuery tbl c q) := by
  constructor
  · simp [loadProductsQuery]
  · exact (List.sorted_insertionSort createdDesc
      (tbl.filter (matchesFilter c q))).sublist (List.take_sublist _ _)

/-- Concrete instantiation of `C1_limit_and_order`. -/
theorem C1_witness : (loadProductsQuery tieTbl none "").length ≤ 50 :=
  (C1_limit_and_order tieTbl none "").1

/-! ## C2: membership condition of the listing result -/

/-- C2 counterexample: on a table where 51 rows satisfy the membership
condition, the oldest matching row is cut off by `limit(50)`, so satisfying
the condition does not imply inclusion in the result. -/
theorem C2_counterexample :
    sampleRow 51 0 ∈ tbl51 ∧ matchesFilter none "" (sampleRow 51 0) = true ∧
    sampleRow 51 0 ∉ loadProductsQuery tbl51 none "" := by
  decide

/-- C2 amended: every row of the result is a table row satisfying the
condition (active status, exact category match when a category is selected,
case-insensitive substring match on title or description when the search text
is non-empty); conversely a table row satisfying the condition is included
provided at most 50 table rows satisfy it — the `limit(50)` may exclude
matching rows beyond that. -/
theorem C2_membership (tbl : List Product) (c : Option String) (q : String)
    (p : Product) :
    (p ∈ loadProductsQuery tbl c q → p ∈ tbl ∧ matchesFilter c q p = true) ∧
    ((tbl.filter (matchesFilter c q)).length ≤ 50 → p ∈ tbl →
      matchesFilter c q p = true → p ∈ loadProductsQuery tbl c q) := by
  constructor
  · intro hp
    have h1 : p ∈ (tbl.filter (matchesFilter c q)).insertionSort createdDesc :=
      List.mem_of_mem_take hp
    have h2 := (List.perm_insertionSort createdDesc _).mem_iff.mp h1
    exact List.mem_filter.mp h2
  · intro hlen hmem hmatch
    have h2 : p ∈ tbl.filter (matchesFilter c q) :=
      List.mem_filter.mpr ⟨hmem, hmatch⟩
    have h1 : p ∈ (tbl.filter (matchesFilter c q)).insertionSort createdDesc :=
      (List.perm_insertionSort createdDesc _).mem_iff.mpr h2
    rw [loadProductsQuery, List.take_of_length_le]
    · exact h1
    · rw [(List.perm_insertionSort createdDesc _).length_eq]
      exact hlen

/-- Concrete instantiation of `C2_membership`: a matching row of a small
table is returned. -/
theorem C2_witness :
    sampleRow 1 5 ∈ loadProductsQuery tieTbl none "pho" :=
  (C2_membership tieTbl none "pho" (sampleRow 1 5)).2 (by decide) (by decide)
    (by decide)

/-! ## C8: behavior of `loadProducts` on transport failure -/

/-- C8 counterexample: after a successful load of one product, a failing
reload does not show "no results" — the products state is not emptied, the
previously loaded row is still presented. -/
theorem C8_counterexample :
    (loadProductsStep { products := [sampleRow 1 1], loading := false }
        [] none "" false).products ≠ [] := by
  decide

/-- C8 amended: on transport failure `loadProducts` completes normally as a
total state update — it leaves the previously loaded products unchanged
(hence shows an empty list only when nothing had been loaded yet), clears the
loading flag, and discards the error; on success the query result replaces
the products. -/
theorem C8_failure_keeps_state (st : HomeState) (tbl : List Product)
    (c : Option String) (q : String) :
    (loadProductsStep st tbl c q false).products = st.products ∧
    (loadProductsStep st tbl c q false).loading = false ∧
    (loadProductsStep st tbl c q true).products = loadProductsQuery tbl c q := by
  simp [loadProductsStep]

/-! ## C9: `loadCategories` -/

/-- C9: the categories query returns exactly the rows whose parent identifier
is null, ordered ascending by display rank; and the failure path, which runs
from the initial empty state, leaves the rendered category list empty rather
than throwing. -/
theorem C9_top_level_categories (tbl : List Category) (c : Category) :
    List.Sorted rankLe (loadCategoriesQuery tbl) ∧
    (c ∈ loadCategoriesQuery tbl ↔ c ∈ tbl ∧ c.parent_id = none) ∧
    loadCategoriesStep [] none = [] := by
  refine ⟨List.sorted_insertionSort rankLe _, ?_, rfl⟩
  rw [loadCategoriesQuery,
    (List.perm_insertionSort rankLe _).mem_iff, List.mem_filter]
  simp

/-- Concrete instantiation of `C9_top_level_categories`: a parentless row is
in the query result. -/
theorem C9_witness :
    catRow 1 3 ∈ loadCategoriesQuery [catRow 1 3, catRow 2 1] := by
  exact ((C9_top_level_categories [catRow 1 3, catRow 2 1]
    (catRow 1 3)).2.1).mpr (by decide)

/-! ## C4: the update path rewrites only the submitted columns -/

/-- C4: when the update path of `handleSubmit` completes, the drafted numbers
parsed, rows with other identifiers are carried over unchanged, the targeted
row is rewritten so that exactly the seven submitted fields take the drafted
values and the update timestamp becomes now, while identifier, owning seller,
status and creation timestamp are those of the old row. -/
theorem C4_update_frame (store : List Product) (pid : Nat) (f : FormState)
    (now : Nat) (store' : List Product)
    (h : handleSubmitUpdate store pid f now = some store') :
    ∃ d, mkProductData f now = some d ∧
      parseDecimal f.price = some d.price ∧
      parseNat f.stock_count = some d.stock_count ∧
      (∀ p ∈ store, p.id ≠ pid → p ∈ store') ∧
      (∀ p ∈ store, p.id = pid → updateRow p d ∈ store') ∧
      ∀ p : Product,
        (updateRow p d).id = p.id ∧ (updateRow p d).seller_id = p.seller_id ∧
        (updateRow p d).created_at = p.created_at ∧
        (updateRow p d).status = p.status ∧ (updateRow p d).updated_at = now ∧
        (updateRow p d).title = f.title ∧
        (updateRow p d).description = f.description ∧
        (updateRow p d).category = f.category ∧
        (updateRow p d).condition = f.condition ∧
        (updateRow p d).images = f.images := by
  cases hd : mkProductData f now with
  | none => simp [handleSubmitUpdate, hd] at h
  | some d =>
    obtain ⟨pr, hp⟩ : ∃ pr, parseDecimal f.price = some pr := by
      cases hpp : parseDecimal f.price
      · simp [mkProductData, hpp] at hd
      · exact ⟨_, rfl⟩
    obtain ⟨st, hn⟩ : ∃ st, parseNat f.stock_count = some st := by
      cases hnn : parseNat f.stock_count
      · simp [mkProductData, hp, hnn] at hd
      · exact ⟨_, rfl⟩
    have hd' : d = (⟨f.title, f.description, pr, f.category, st, f.condition,
        f.images, now⟩ : ProductData) := by
      simp [mkProductData, hp, hn] at hd
      exact hd.symm
    have hs : store' =
        store.map (fun p => if p.id = pid then updateRow p d else p) := by
      simp [handleSubmitUpdate, hd] at h
      exact h.symm
    subst hd'
    refine ⟨_, rfl, by simp [hp], by simp [hn], ?_, ?_, ?_⟩
    · intro p hmem hne
      rw [hs]
      exact List.mem_map.mpr ⟨p, hmem, by simp [hne]⟩
    · intro p hmem heq
      rw [hs]
      exact List.mem_map.mpr ⟨p, hmem, by simp [heq]⟩
    · intro p
      simp [updateRow]

/-- The edit draft used to instantiate `C4_update_frame`. -/
def editDraft : FormState :=
  { initialForm with
    title := "t2", description := "d2", price := "9", stock_count := "4",
    category := "other" }

/-- The store produced by applying `editDraft` to the one-row store. -/
def editedStore : List Product :=
  [updateRow (sampleRow 1 5) ⟨"t2", "d2", 9, "other", 4, "new", [], 10⟩]

/-- Concrete instantiation of `C4_update_frame` on a one-row store. -/
theorem C4_witness :
    ∃ d, mkProductData editDraft 10 = some d ∧
      parseDecimal editDraft.price = some d.price ∧
      parseNat editDraft.stock_count = some d.stock_count ∧
      (∀ p ∈ [sampleRow 1 5], p.id ≠ 1 → p ∈ editedStore) ∧
      (∀ p ∈ [sampleRow 1 5], p.id = 1 → updateRow p d ∈ editedStore) ∧
      ∀ p : Product,
        (updateRow p d).id = p.id ∧ (updateRow p d).seller_id = p.seller_id ∧
        (updateRow p d).created_at = p.created_at ∧
        (updateRow p d).status = p.status ∧ (updateRow p d).updated_at = 10 ∧
        (updateRow p d).title = editDraft.title ∧
        (updateRow p d).description = editDraft.description ∧
        (updateRow p d).category = editDraft.category ∧
        (updateRow p d).condition = editDraft.condition ∧
        (updateRow p d).images = editDraft.images := by
  exact C4_update_frame [sampleRow 1 5] 1 editDraft 10 editedStore (by decide)

/-! ## C5: the create path -/

theorem id_le_maxFold (store : List Product) (p : Product) (hp : p ∈ store) :
    p.id ≤ store.foldr (fun r m => max r.id m) 0 := by
  induction store with
  | nil => cases hp
  | cons a l ih =>
    rcases List.mem_cons.mp hp with h | h
    · subst h; exact Nat.le_max_left _ _
    · exact Nat.le_trans (ih h) (Nat.le_max_right _ _)

/-- C5: when the create path of `handleSubmit` completes, the store grows by
exactly one row whose identifier is fresh (used by no prior row), whose
status is active, whose owner is the submitting seller, whose creation and
update timestamps are both now, and whose submitted fields carry the parsed
draft values. -/
theorem C5_create (store : List Product) (s : String) (f : FormState)
    (now : Nat) (r : List Product × Product)
    (h : handleSubmitCreate store s f now = some r) :
    ∃ d, mkProductData f now = some d ∧
      parseDecimal f.price = some d.price ∧
      parseNat f.stock_count = some d.stock_count ∧
      r.1 = store ++ [r.2] ∧
      (∀ p ∈ store, p.id ≠ r.2.id) ∧
      r.2.status = "active" ∧ r.2.seller_id = s ∧
      r.2.created_at = now ∧ r.2.updated_at = now ∧
      r.2.title = f.title ∧ r.2.description = f.description ∧
      r.2.category = f.category ∧ r.2.condition = f.condition ∧
      r.2.images = f.images ∧ r.2.price = d.price ∧
      r.2.stock_count = d.stock_count := by
  cases hd : mkProductData f now with
  | none => simp [handleSubmitCreate, hd] at h
  | some d =>
    obtain ⟨pr, hp⟩ : ∃ pr, parseDecimal f.price = some pr := by
      cases hpp : parseDecimal f.price
      · simp [mkProductData, hpp] at hd
      · exact ⟨_, rfl⟩
    obtain ⟨st, hn⟩ : ∃ st, parseNat f.stock_count = some st := by
      cases hnn : parseNat f.stock_count
      · simp [mkProductData, hp, hnn] at hd
      · exact ⟨_, rfl⟩
    have hd' : d = (⟨f.title, f.description, pr, f.category, st, f.condition,
        f.images, now⟩ : ProductData) := by
      simp [mkProductData, hp, hn] at hd
      exact hd.symm
    have hr : r = (store ++ [insertProduct store s d now],
        insertProduct store s d now) := by
      simp [handleSubmitCreate, hd] at h
      exact h.symm
    subst hd'
    refine ⟨_, rfl, by simp [hp], by simp [hn], by rw [hr], ?_, ?_⟩
    · intro p hmem
      rw [hr]
      have hle := id_le_maxFold store p hmem
      have : p.id < freshId store := Nat.lt_succ_of_le hle
      simp only [insertProduct]
      omega
    · rw [hr]
      simp [insertProduct]

/-- Concrete instantiation of `C5_create`: the Phone scenario — draft with
title Phone, price 150.50, stock 3, category electronics, submitted by seller
S1, persists an active product owned by S1. -/
theorem C5_witness :
    ∃ d, mkProductData phoneDraft 7 = some d ∧
      parseDecimal phoneDraft.price = some d.price ∧
      parseNat phoneDraft.stock_count = some d.stock_count ∧
      ([phoneRow] : List Product) = [] ++ [phoneRow] ∧
      (∀ p ∈ ([] : List Product), p.id ≠ phoneRow.id) ∧
      phoneRow.status = "active" ∧ phoneRow.seller_id = "S1" ∧
      phoneRow.created_at = 7 ∧ phoneRow.updated_at = 7 ∧
      phoneRow.title = phoneDraft.title ∧
      phoneRow.description = phoneDraft.description ∧
      phoneRow.category = phoneDraft.category ∧
      phoneRow.condition = phoneDraft.condition ∧
      phoneRow.images = phoneDraft.images ∧ phoneRow.price = d.price ∧
      phoneRow.stock_count = d.stock_count := by
  have hp : parseDecimal "150.50" = some ((301 : ℚ) / 2) := by
    have hs : "150.50".data.splitOn '.' = [['1', '5', '0'], ['5', '0']] := by
      decide
    have h1 : parseDigits ['1', '5', '0'] = some 150 := by decide
    have h2 : parseDigits ['5', '0'] = some 50 := by decide
    simp [parseDecimal, hs, h1, h2]
    norm_num
  have hn : parseNat "3" = some 3 := by decide
  have h : handleSubmitCreate [] "S1" phoneDraft 7 = some ([phoneRow], phoneRow) := by
    simp [handleSubmitCreate, mkProductData, hp, hn, insertProduct, phoneDraft,
      initialForm, phoneRow, freshId]
  simpa using C5_create [] "S1" phoneDraft 7 ([phoneRow], phoneRow) h

/-! ## C6: a six-image draft is not rejected by the submit path -/

/-- A syntactically valid draft carrying six image references. -/
def draft6 : FormState :=
  { initialForm with
    title := "t", description := "d", price := "1", stock_count := "1",
    category := "other", images := ["u1", "u2", "u3", "u4", "u5", "u6"] }

/-- C6 counterexample: `handleSubmit` performs no validation before the store
call; a draft with 6 images does not fail — the insert is issued and one row
carrying all 6 images is persisted. -/
theorem C6_counterexample :
    draft6.images.length = 6 ∧
    (handleSubmitCreate [] "s" draft6 3).map
        (fun r => (r.1.length, r.2.images.length)) = some (1, 6) := by
  decide

/-- C6 amended: the submit path checks no image-count precondition — for any
draft whose numbers parse, the insert is issued regardless of the image-list
length, in particular for 6 images; the 5-image bound is maintained upstream
by `addImage`, which never grows the form's list past 5. -/
theorem C6_no_validation (store : List Product) (s : String) (f : FormState)
    (now : Nat) (pr : ℚ) (st : Nat) (h6 : 5 < f.images.length)
    (hp : parseDecimal f.price = some pr)
    (hn : parseNat f.stock_count = some st) :
    ∃ p, handleSubmitCreate store s f now = some (store ++ [p], p) ∧
      p.images = f.images ∧ 5 < p.images.length := by
  refine ⟨insertProduct store s
    ⟨f.title, f.description, pr, f.category, st, f.condition, f.images, now⟩
    now, ?_, rfl, ?_⟩
  · simp [handleSubmitCreate, mkProductData, hp, hn]
  · simpa [insertProduct] using h6

/-- Concrete instantiation of `C6_no_validation` on `draft6`. -/
theorem C6_witness :
    ∃ p, handleSubmitCreate [] "s" draft6 3 = some ([] ++ [p], p) ∧
      p.images = draft6.images ∧ 5 < p.images.length := by
  exact C6_no_validation [] "s" draft6 3 1 1 (by decide) (by decide) (by decide)

/-! ## C7: update by a non-owner (storage-layer check, modelled) -/

theorem storeAfter_error (e : WriteError) (store : List Product) :
    storeAfter (.error e) store = store :=
  rfl

/-- C7: an update attempted by a seller who does not own the targeted row
fails with Forbidden and leaves the store unchanged. -/
theorem C7_forbidden (store : List Product) (pid : Nat) (s : String)
    (f : FormState) (now : Nat) (p : Product)
    (hfind : store.find? (fun r => r.id == pid) = some p)
    (hown : p.seller_id ≠ s) :
    updateProductChecked store pid s f now = .error .forbidden ∧
    storeAfter (updateProductChecked store pid s f now) store = store := by
  have he : updateProductChecked store pid s f now = .error .forbidden := by
    rw [updateProductChecked, hfind]
    simp [hown]
  exact ⟨he, by rw [he]; exact storeAfter_error _ _⟩

/-- Concrete instantiation of `C7_forbidden`: seller s2 cannot update the row
owned by seller s. -/
theorem C7_witness :
    updateProductChecked [sampleRow 1 5] 1 "s2" initialForm 9 =
      .error .forbidden ∧
    storeAfter (updateProductChecked [sampleRow 1 5] 1 "s2" initialForm 9)
      [sampleRow 1 5] = [sampleRow 1 5] := by
  exact C7_forbidden [sampleRow 1 5] 1 "s2" initialForm 9 (sampleRow 1 5)
    (by decide) (by decide)

/-! ## C10: the image list of the form -/

theorem removeImage_keepAll (l : List String) :
    ∀ (m k : Nat), k < m →
      ((List.enumFrom m l).filter (fun e => e.1 != k)).map (fun e => e.2) =
        l := by
  induction l with
  | nil => intro m k _; rfl
  | cons x xs ih =>
    intro m k hk
    have hne : (m != k) = true := by
      simp only [bne_iff_ne, ne_eq]
      omega
    simp [List.enumFrom, List.filter_cons, hne, ih (m + 1) k (by omega)]

theorem enumFilter_eq (l : List String) :
    ∀ (m k i : Nat), i < l.length → k = m + i →
      ((List.enumFrom m l).filter (fun e => e.1 != k)).map (fun e => e.2) =
        l.take i ++ l.drop (i + 1) := by
  induction l with
  | nil => intro m k i hi _; simp at hi
  | cons x xs ih =>
    intro m k i hi hk
    cases i with
    | zero =>
      have h0 : (m != k) = false := by
        simp only [bne_eq_false_iff_eq]
        omega
      have h1 := removeImage_keepAll xs (m + 1) k (by omega)
      simp [List.enumFrom, List.filter_cons, h0, h1]
    | succ j =>
      have h0 : (m != k) = true := by
        simp only [bne_iff_ne, ne_eq]
        omega
      have h1 := ih (m + 1) k j (by simpa using Nat.lt_of_succ_lt_succ hi)
        (by omega)
      simp [List.enumFrom, List.filter_cons, h0, h1]

theorem stepForm_images_le (st : FormState) (op : FOp)
    (h : st.images.length ≤ 5) : (stepForm st op).images.length ≤ 5 := by
  cases op with
  | setInput s => exact h
  | add =>
    simp only [stepForm, addImage]
    split
    · rename_i hcond
      simp only [Bool.and_eq_true, decide_eq_true_eq] at hcond
      simp only [List.length_append, List.length_cons, List.length_nil]
      omega
    · exact h
  | remove i =>
    simp only [stepForm, removeImage]
    have h2 := List.length_filter_le (fun e => e.1 != i) st.images.enum
    rw [List.enum_length] at h2
    rw [List.length_map]
    omega

theorem foldl_images_le (ops : List FOp) : ∀ st : FormState,
    st.images.length ≤ 5 → (ops.foldl stepForm st).images.length ≤ 5 := by
  induction ops with
  | nil => intro st h; exact h
  | cons op rest ih =>
    intro st h
    exact ih (stepForm st op) (stepForm_images_le st op h)

/-- C10: starting from the empty form, no sequence of image events ever grows
the image list past 5 entries; `addImage` is a no-op when the pending input
trims to the empty string or when the list already holds 5 (or more) entries;
and `removeImage i` deletes exactly the `i`-th entry, keeping the remaining
entries in order. -/
theorem C10_image_invariant (ops : List FOp) (st : FormState) (i : Nat) :
    (runForm ops).images.length ≤ 5 ∧
    (jsTrim st.imageInput = "" → addImage st = st) ∧
    (5 ≤ st.images.length → addImage st = st) ∧
    (i < st.images.length →
      (removeImage i st).images =
        st.images.take i ++ st.images.drop (i + 1)) := by
  refine ⟨foldl_images_le ops initialForm (by simp [initialForm]), ?_, ?_, ?_⟩
  · intro htrim
    simp [addImage, htrim]
  · intro hlen
    have hnot : ¬ st.images.length < 5 := by omega
    simp [addImage, hnot]
  · intro hi
    simp only [removeImage]
    exact enumFilter_eq st.images 0 i i hi (by omega)

/-- A form state whose image list is full. -/
def fullForm : FormState :=
  { initialForm with
    images := ["a", "b", "c", "d", "e"], imageInput := "f" }

/-- A form state whose pending image input is whitespace-only. -/
def spacedForm : FormState :=
  { initialForm with images := ["a", "b", "c"], imageInput := " \t" }

/-- Concrete instantiation of `C10_image_invariant`: a three-event run stays
within bounds, the two no-op cases, and a middle removal. -/
theorem C10_witness :
    (runForm [FOp.setInput "u", FOp.add, FOp.remove 0]).images.length ≤ 5 ∧
    addImage spacedForm = spacedForm ∧ addImage fullForm = fullForm ∧
    (removeImage 1 spacedForm).images = ["a", "c"] := by
  refine ⟨(C10_image_invariant [FOp.setInput "u", FOp.add, FOp.remove 0]
      spacedForm 0).1,
    (C10_image_invariant [] spacedForm 0).2.1 (by decide),
    (C10_image_invariant [] fullForm 0).2.2.1 (by decide), ?_⟩
  have h := (C10_image_invariant [] spacedForm 1).2.2.2 (by decide)
  simpa [spacedForm, initialForm] using h

end GhanaMarket

